import Mathlib

/-!
Verification development for the firefly terraform provider
(`internal/provider/provider.go`, `internal/provider/sysinfo_data_source.go`).

Go strings are modelled as `List Char` (the sources only handle ASCII data);
`net/url.Parse` is embedded on the fragment the provider exercises:
scheme / authority / path / query splitting with Go's host-byte and port
validation, including the bracket-host branch of `parseHost` (a host that
starts with a left bracket needs a right bracket and a valid optional port
after the last one).  Percent-escapes and IPv6 zone identifiers are not
modelled — a host containing `%` is rejected, which is conservative for the
inputs the provider accepts.
-/

namespace Firefly

/-- Go strings, modelled as lists of characters. -/
abbrev GoString := List Char

/-- Shorthand for turning a Lean string literal into the Go-string model. -/
def gs (s : String) : GoString := s.toList

/-! ## `net/url` fragment -/

/-- Model of Go's `url.URL` restricted to the fields the provider touches
(`Scheme`, `Host`, `Path`, `RawQuery`, and `Opaque` as `opq`). -/
structure URL where
  scheme : GoString
  host : GoString
  path : GoString
  rawQuery : GoString
  opq : GoString
deriving DecidableEq, Repr

/-- Characters allowed after the first character of a URL scheme
(`net/url.getScheme`). -/
def schemeTailChar (c : Char) : Bool :=
  c.isAlpha || c.isDigit || c = '+' || c = '-' || c = '.'

/-- Recursive worker for `getScheme`: `acc` holds the scheme candidate read so
far, reversed.  Mirrors the loop of Go's `net/url.getScheme`: an error only
when `:` is the first character; any non-scheme character before a `:` means
the string has no scheme. -/
def getSchemeAux : GoString → GoString → Except GoString (GoString × GoString)
  | acc, [] => .ok ([], acc.reverse)
  | acc, c :: rest =>
    if c = ':' then
      if acc.isEmpty then .error (gs "missing protocol scheme")
      else .ok (acc.reverse, rest)
    else if (if acc.isEmpty then c.isAlpha else schemeTailChar c) then
      getSchemeAux (c :: acc) rest
    else .ok ([], acc.reverse ++ c :: rest)

/-- Model of Go's `net/url.getScheme`: splits `scheme:rest`, or returns an
empty scheme with the input unchanged when no scheme prefix is present. -/
def getScheme (s : GoString) : Except GoString (GoString × GoString) :=
  getSchemeAux [] s

/-- Go's `validOptionalPort`: empty, or `:` followed by decimal digits. -/
def validOptionalPort (p : GoString) : Bool :=
  match p with
  | [] => true
  | ':' :: digits => digits.all Char.isDigit
  | _ => false

/-- Raw bytes Go accepts in a host component
(`shouldEscape(c, encodeHost) = false` in `net/url`, which does accept raw
brackets); `%` is excluded because percent-escapes are not modelled. -/
def validHostChar (c : Char) : Bool :=
  c.isAlpha || c.isDigit ||
  c = '-' || c = '.' || c = '_' || c = '~' ||
  c = '!' || c = '$' || c = '&' || c = '\'' || c = '(' || c = ')' ||
  c = '*' || c = '+' || c = ',' || c = ';' || c = '=' ||
  c = ':' || c = '[' || c = ']' || c = '<' || c = '>' || c = '"'

/-- The part of `host` from its last `:` on (empty when `host` has no `:`),
as used by Go's `parseHost` for port validation. -/
def lastColonPart (host : GoString) : GoString :=
  let revTail := host.reverse.takeWhile (fun c => c ≠ ':')
  if revTail.length = host.length then []
  else host.drop (host.length - revTail.length - 1)

/-- The part of `host` strictly after its last right bracket (the whole of
`host` when it has none), as Go's `parseHost` extracts with
`host[strings.LastIndex(host, "]")+1:]` for port validation on bracket
hosts. -/
def afterLastBracket (host : GoString) : GoString :=
  (host.reverse.takeWhile (fun c => c ≠ ']')).reverse

/-- Model of Go's `net/url.parseHost`: a host starting with a left bracket
must contain a right bracket and carry a valid optional port after the last
one; any other host must carry a valid optional port after its last colon;
in both branches every raw byte must be one Go accepts in a host
(percent-escapes are not modelled, so a percent sign is rejected here rather
than unescaped; IPv6 zone identifiers are likewise unmodelled). -/
def parseHost (host : GoString) : Except GoString GoString :=
  if host.take 1 = ['['] then
    if host.all (fun c => c ≠ ']') then
      .error (gs "missing right bracket in host")
    else if !(validOptionalPort (afterLastBracket host)) then
      .error (gs "invalid port after host")
    else if host.all validHostChar then .ok host
    else .error (gs "invalid character in host name")
  else if !(validOptionalPort (lastColonPart host)) then
    .error (gs "invalid port after host")
  else if host.all validHostChar then .ok host
  else .error (gs "invalid character in host name")

/-- `strings.Cut(s, "?")`: the part before the first `?` and the part after it
(empty when there is no `?`). -/
def cutQuery (s : GoString) : GoString × GoString :=
  let before := s.takeWhile (fun c => c ≠ '?')
  (before, s.drop (before.length + 1))

/-- Model of Go's `net/url.Parse` (with `viaRequest = false`) on the fragment
the provider exercises: scheme detection, `//authority` splitting with host
validation, path and raw query.  Fragments (`#`), user-info (`@`), forced
queries, and percent-escapes are outside the modelled fragment. -/
def urlParse (s : GoString) : Except GoString URL :=
  match getScheme s with
  | .error e => .error e
  | .ok (scheme0, rest0) =>
    let scheme := scheme0.map Char.toLower
    let (rest, rawQuery) := cutQuery rest0
    if scheme ≠ [] ∧ rest.take 1 ≠ ['/'] then
      .ok { scheme := scheme, host := [], path := [], rawQuery := rawQuery,
            opq := rest }
    else if scheme = [] ∧ rest.take 1 ≠ ['/'] ∧
        (rest.takeWhile (fun c => c ≠ '/')).any (fun c => c = ':') then
      .error (gs "first path segment in URL cannot contain colon")
    else if rest.take 2 = ['/', '/'] ∧
        (scheme ≠ [] ∨ rest.take 3 ≠ ['/', '/', '/']) then
      let afterSlashes := rest.drop 2
      let authority := afterSlashes.takeWhile (fun c => c ≠ '/')
      let pathPart := afterSlashes.drop authority.length
      match parseHost authority with
      | .error e => .error e
      | .ok host =>
        .ok { scheme := scheme, host := host, path := pathPart,
              rawQuery := rawQuery, opq := [] }
    else
      .ok { scheme := scheme, host := [], path := rest, rawQuery := rawQuery,
            opq := [] }

/-! ## HTTP request and header model -/

/-- An HTTP header, modelled as the ordered list of `(key, value)` additions;
Go's `Header.Add` appends a value for a key, `Header.Get` returns the first
value added for a key. -/
abbrev Header := List (GoString × GoString)

/-- Go's `http.Header.Add`. -/
def headerAdd (h : Header) (k v : GoString) : Header := h ++ [(k, v)]

/-- Go's `http.Header.Get`: first value added for the key, empty if absent. -/
def headerGet (h : Header) (k : GoString) : GoString :=
  match h.find? (fun kv => kv.1 = k) with
  | some kv => kv.2
  | none => []

/-- All values held for a key, in addition order. -/
def headerValues (h : Header) (k : GoString) : List GoString :=
  (h.filter (fun kv => kv.1 = k)).map (fun kv => kv.2)

/-- Model of Go's `http.Request` restricted to the fields the provider
touches. -/
structure Request where
  method : GoString
  url : URL
  header : Header
deriving DecidableEq, Repr

/-- Characters allowed in an HTTP method token (`net/http.validMethod`). -/
def validMethodChar (c : Char) : Bool :=
  c.isAlpha || c.isDigit ||
  c = '!' || c = '#' || c = '$' || c = '%' || c = '&' || c = '\'' ||
  c = '*' || c = '+' || c = '-' || c = '.' || c = '^' || c = '_' ||
  c = '|' || c = '~' || c = Char.ofNat 96

/-- Go's `net/http.validMethod`. -/
def validMethod (m : GoString) : Bool :=
  !m.isEmpty && m.all validMethodChar

/-- Model of Go's `http.NewRequest` on the fields the provider uses: fails on
an invalid method or an unparseable URL, otherwise builds a request with an
empty header. -/
def newRequest (method urlStr : GoString) : Except GoString Request :=
  if !(validMethod method) then .error (gs "invalid method")
  else
    match urlParse urlStr with
    | .error e => .error e
    | .ok u => .ok { method := method, url := u, header := [] }

/-! ## `fireflyTransport` (provider.go) -/

/-- Model of `fireflyTransport`: configured base URL and access token.  The
underlying `rt` round tripper is modelled by returning the rewritten request
that would be delegated to it. -/
structure fireflyTransport where
  baseURL : GoString
  accessToken : GoString
deriving DecidableEq, Repr

/-- The literal header key `"Authorization"`. -/
def authorizationKey : GoString := gs "Authorization"

/-- `fmt.Sprintf("Bearer %s", tok)`. -/
def bearerValue (tok : GoString) : GoString := gs "Bearer " ++ tok

/-- Model of `fireflyTransport.RoundTrip` (provider.go lines 69-78): parse the
configured base URL (propagating its error), overwrite the request URL's
scheme and host from the parsed result, add the `Authorization` header, and
delegate; the `.ok` value is the rewritten request handed to the underlying
transport. -/
def fireflyTransport.roundTrip (t : fireflyTransport) (r : Request) :
    Except GoString Request :=
  match urlParse t.baseURL with
  | .error e => .error e
  | .ok parsed =>
    .ok { r with
          url := { r.url with scheme := parsed.scheme, host := parsed.host },
          header := headerAdd r.header authorizationKey
                      (bearerValue t.accessToken) }

/-! ## Provider configuration (provider.go) -/

/-- Model of `FireflyProviderModel`: the two configuration attributes. -/
structure FireflyProviderModel where
  endpoint : GoString
  accessToken : GoString
deriving DecidableEq, Repr

/-- `[^:/]+(:\d+)?$` — host-and-optional-port part of the endpoint
validator's regex (provider.go line 49). -/
def matchesHostPort (s : GoString) : Bool :=
  let host := s.takeWhile (fun c => c ≠ ':' && c ≠ '/')
  let rest := s.drop host.length
  !host.isEmpty &&
    (rest.isEmpty ||
      (rest.take 1 = [':'] && !(rest.drop 1).isEmpty &&
        (rest.drop 1).all Char.isDigit))

/-- The endpoint attribute's validator regex
`^https?://[^:/]+(:\d+)?$` (provider.go lines 48-51). -/
def matchesEndpointPattern (s : GoString) : Bool :=
  if s.take 7 = gs "http://" then matchesHostPort (s.drop 7)
  else if s.take 8 = gs "https://" then matchesHostPort (s.drop 8)
  else false

/-- Model of the HTTP client `FireflyProvider.Configure` hands to data
sources: its transport is a `fireflyTransport`. -/
structure HttpClient where
  transport : fireflyTransport
deriving DecidableEq, Repr

/-- The validator's failure message (provider.go line 50). -/
def endpointValidationError : GoString :=
  gs "must be a URL, like http://firefly.local or http://firefly.local:8000"

/-- Model of the provider configuration pipeline: the framework first runs the
declared schema validators (here the endpoint regex, provider.go lines 47-52)
and rejects the configuration on a mismatch before `Configure` runs;
`Configure` (provider.go lines 80-101) then builds the HTTP client whose
transport holds the endpoint and token. -/
def providerConfigure (m : FireflyProviderModel) :
    Except GoString HttpClient :=
  if matchesEndpointPattern m.endpoint then
    .ok { transport := { baseURL := m.endpoint,
                         accessToken := m.accessToken } }
  else
    .error endpointValidationError

/-! ## JSON decoding (encoding/json fragment) -/

/-- JSON values (numbers as integers suffice: the envelope only reads
strings, and any non-string value leaves a string field untouched). -/
inductive Json where
  | null
  | bool (b : Bool)
  | num (n : Int)
  | str (s : GoString)
  | arr (xs : List Json)
  | obj (kvs : List (GoString × Json))

/-- A response body as seen by `json.NewDecoder(body).Decode`: `none` models
text that is not valid JSON (the decoder reports a syntax error and leaves
the target struct untouched), `some j` models a body whose JSON value is
`j`. -/
abbrev Body := Option Json

/-- Object field lookup with Go's last-occurrence-wins semantics for
duplicate keys. -/
def jsonLookup (kvs : List (GoString × Json)) (k : GoString) : Option Json :=
  (kvs.reverse.find? (fun kv => kv.1 = k)).map (fun kv => kv.2)

/-- Go's unmarshal of a JSON object field into a `string` struct field: a
JSON string sets the field; a missing key, `null`, or a value of another type
leaves the field at its zero value (the type error the decoder would report
is discarded by the caller). -/
def decodeStringField (kvs : List (GoString × Json)) (k : GoString) :
    GoString :=
  match jsonLookup kvs k with
  | some (Json.str s) => s
  | _ => []

/-- The anonymous envelope struct `Read` decodes into
(sysinfo_data_source.go lines 100-108): five string fields under `data`. -/
structure EnvelopeData where
  version : GoString
  apiVersion : GoString
  phpVersion : GoString
  os : GoString
  dbDriver : GoString
deriving DecidableEq, Repr

/-- The zero value of the envelope struct: all fields empty. -/
def zeroEnvelopeData : EnvelopeData :=
  { version := [], apiVersion := [], phpVersion := [], os := [],
    dbDriver := [] }

/-- Model of `json.NewDecoder(resp.Body).Decode(&respData)` as called at
sysinfo_data_source.go line 109 with the decode error discarded: invalid
JSON, a non-object body, or a non-object `data` value leave the struct at its
zero value; otherwise each string field under `data` is copied and every
mismatch is silently skipped. -/
def decodeEnvelope (body : Body) : EnvelopeData :=
  match body with
  | none => zeroEnvelopeData
  | some (Json.obj kvs) =>
    match jsonLookup kvs (gs "data") with
    | some (Json.obj dkvs) =>
      { version := decodeStringField dkvs (gs "version"),
        apiVersion := decodeStringField dkvs (gs "api_version"),
        phpVersion := decodeStringField dkvs (gs "php_version"),
        os := decodeStringField dkvs (gs "os"),
        dbDriver := decodeStringField dkvs (gs "driver") }
    | _ => zeroEnvelopeData
  | some _ => zeroEnvelopeData

/-! ## `SysInfoDataSource` (sysinfo_data_source.go) -/

/-- Model of `SysInfoDataSourceModel`: the five computed string attributes
(`types.String` values carrying the decoded strings). -/
structure SysInfoDataSourceModel where
  version : GoString
  apiVersion : GoString
  phpVersion : GoString
  os : GoString
  dbDriver : GoString
deriving DecidableEq, Repr

/-- A diagnostic added via `resp.Diagnostics.AddError(title, msg)`. -/
structure Diagnostic where
  title : GoString
  msg : GoString
deriving DecidableEq, Repr

/-- Model of `SysInfoDataSource`: holds the configured HTTP client, `none`
while unconfigured (the Go field is a nil pointer until `Configure` sets
it). -/
structure SysInfoDataSource where
  client : Option HttpClient
deriving DecidableEq, Repr

/-- The values `Configure` can find in `req.ProviderData` when it is not nil:
the provider's `*http.Client`, or a value of some other type (its type name
kept for the diagnostic). -/
inductive ProviderData where
  | httpClient (c : HttpClient)
  | other (typeName : GoString)
deriving DecidableEq, Repr

/-- Model of `SysInfoDataSource.Configure` (sysinfo_data_source.go lines
59-77): nil provider data returns at once with no diagnostic and the client
untouched; a non-client value adds the unexpected-type diagnostic; a client
is stored. -/
def sysInfoConfigure (d : SysInfoDataSource) (pd : Option ProviderData) :
    SysInfoDataSource × List Diagnostic :=
  match pd with
  | none => (d, [])
  | some (ProviderData.httpClient c) => ({ d with client := some c }, [])
  | some (ProviderData.other t) =>
    (d, [{ title := gs "Unexpected Data Source Configure Type",
           msg := gs "Expected *http.Client, got: " ++ t ++
                  gs ". Please report this issue to the provider developers." }])

/-- The request `Read` builds (sysinfo_data_source.go line 92):
`http.NewRequest("GET", "/api/v1/about", nil)` with its error discarded. -/
def sysInfoHttpReq : Except GoString Request :=
  newRequest (gs "GET") (gs "/api/v1/about")

/-- The diagnostic `Read` adds when `d.client.Do` fails
(sysinfo_data_source.go line 95). -/
def clientErrorDiag (err : GoString) : Diagnostic :=
  { title := gs "Client Error",
    msg := gs "Unable to read example, got error: " ++ err }

/-- Copying the decoded envelope into the result model
(sysinfo_data_source.go lines 111-115): plain field-by-field pass-through. -/
def envelopeToModel (e : EnvelopeData) : SysInfoDataSourceModel :=
  { version := e.version, apiVersion := e.apiVersion,
    phpVersion := e.phpVersion, os := e.os, dbDriver := e.dbDriver }

/-- Model of the tail of `SysInfoDataSource.Read` (sysinfo_data_source.go
lines 92-121) given the outcome of `d.client.Do`: a transport error adds the
client-error diagnostic and returns without touching the state; otherwise the
body is decoded (decode error discarded) and the resulting record is written
to the state. -/
def sysInfoRead (doResult : Except GoString Body) :
    Except Diagnostic SysInfoDataSourceModel :=
  match doResult with
  | .error err => .error (clientErrorDiag err)
  | .ok body => .ok (envelopeToModel (decodeEnvelope body))

/-- `Read` with the Terraform state made explicit: on error the prior state
is kept and the diagnostic reported; on success the fresh record replaces the
state. -/
def sysInfoReadStateful (st : Option SysInfoDataSourceModel)
    (doResult : Except GoString Body) :
    Option SysInfoDataSourceModel × Option Diagnostic :=
  match sysInfoRead doResult with
  | .error diag => (st, some diag)
  | .ok m => (some m, none)

/-- `Read` instrumented with the list of requests handed to `client.Do`: the
single request of line 92 is issued exactly once, also on the error path
(there is no retry). -/
def sysInfoReadTraced (client : Request → Except GoString Body) :
    Except Diagnostic SysInfoDataSourceModel × List Request :=
  match sysInfoHttpReq with
  | .error _ =>
    (.error (clientErrorDiag (gs "http: nil Request.URL")), [])
  | .ok req => (sysInfoRead (client req), [req])

/-! Named concrete values used by the statements below. -/

/-- A base URL of the shape the endpoint validator accepts:
`http://host[:port]` or `https://host[:port]`. -/
def endpointOf (b : Bool) (hp : GoString) : GoString :=
  (if b then gs "https" else gs "http") ++ gs "://" ++ hp

/-- The request `http.NewRequest("GET", "/api/v1/about", nil)` produces: a
GET for the relative path `/api/v1/about` with an empty header. -/
def aboutRequest : Request :=
  { method := gs "GET",
    url := { scheme := [], host := [], path := gs "/api/v1/about",
             rawQuery := [], opq := [] },
    header := [] }

/-- The address a URL with scheme and host denotes, spelled as a string. -/
def fullURLString (u : URL) : GoString :=
  u.scheme ++ gs "://" ++ u.host ++ u.path

/-- The about-request after the transport rewrite against
`endpointOf b hp` with token `tok`. -/
def rewrittenAbout (b : Bool) (hp tok : GoString) : Request :=
  { method := gs "GET",
    url := { scheme := if b then gs "https" else gs "http", host := hp,
             path := gs "/api/v1/about", rawQuery := [], opq := [] },
    header := [(authorizationKey, bearerValue tok)] }

/-- The example envelope body
`{"data":{"version":"6.1.0","api_version":"2.0.0","php_version":"8.2","os":"Linux","driver":"mysql"}}`. -/
def exampleEnvelopeBody : Json :=
  Json.obj [(gs "data", Json.obj
    [(gs "version", Json.str (gs "6.1.0")),
     (gs "api_version", Json.str (gs "2.0.0")),
     (gs "php_version", Json.str (gs "8.2")),
     (gs "os", Json.str (gs "Linux")),
     (gs "driver", Json.str (gs "mysql"))])]

/-- The record the example envelope body should produce. -/
def exampleRecord : SysInfoDataSourceModel :=
  { version := gs "6.1.0", apiVersion := gs "2.0.0", phpVersion := gs "8.2",
    os := gs "Linux", dbDriver := gs "mysql" }

/-- A token-credential transport against `http://firefly.local`. -/
def tokenTransport : fireflyTransport :=
  { baseURL := gs "http://firefly.local", accessToken := gs "tok" }

/-- The about-request with a pre-existing `Authorization` header. -/
def staleAuthRequest : Request :=
  { method := gs "GET",
    url := { scheme := [], host := [], path := gs "/api/v1/about",
             rawQuery := [], opq := [] },
    header := [(authorizationKey, gs "stale")] }

/-- What `tokenTransport` makes of `staleAuthRequest`: the stale value stays
first in the header, the bearer value is appended after it. -/
def staleAuthRewritten : Request :=
  { method := gs "GET",
    url := { scheme := gs "http", host := gs "firefly.local",
             path := gs "/api/v1/about", rawQuery := [], opq := [] },
    header := [(authorizationKey, gs "stale"),
               (authorizationKey, bearerValue (gs "tok"))] }

end Firefly

namespace Firefly

/-! List helpers used by the URL-parsing lemmas. -/

lemma takeWhile_eq_self_of_all {p : Char → Bool} {l : GoString}
    (h : ∀ c ∈ l, p c = true) : l.takeWhile p = l := by
  induction l with
  | nil => rfl
  | cons c t ih =>
    rw [List.takeWhile_cons, if_pos (h c (List.mem_cons_self c t)),
      ih (fun x hx => h x (List.mem_cons_of_mem c hx))]

lemma takeWhile_append_stop {p : Char → Bool} {l1 l2 : GoString} {c : Char}
    (h1 : ∀ x ∈ l1, p x = true) (hc : p c = false) :
    (l1 ++ c :: l2).takeWhile p = l1 := by
  induction l1 with
  | nil => simp [List.takeWhile_cons, hc]
  | cons a t ih =>
    rw [List.cons_append, List.takeWhile_cons,
      if_pos (h1 a (List.mem_cons_self a t)),
      ih (fun x hx => h1 x (List.mem_cons_of_mem a hx))]

lemma mem_takeWhile_pred {p : Char → Bool} {l : GoString} {c : Char}
    (h : c ∈ l.takeWhile p) : p c = true := by
  induction l with
  | nil => simp [List.takeWhile] at h
  | cons a t ih =>
    rw [List.takeWhile_cons] at h
    by_cases hp : p a = true
    · rw [if_pos hp] at h
      rcases List.mem_cons.mp h with rfl | h2
      · exact hp
      · exact ih h2
    · rw [if_neg hp] at h
      exact absurd h (List.not_mem_nil c)

lemma drop_takeWhile_length (p : Char → Bool) (l : GoString) :
    l.drop (l.takeWhile p).length = l.dropWhile p := by
  induction l with
  | nil => rfl
  | cons c t ih =>
    by_cases h : p c = true
    · rw [List.takeWhile_cons, if_pos h, List.dropWhile_cons_of_pos h]
      simpa using ih
    · rw [List.takeWhile_cons, if_neg h,
        List.dropWhile_cons_of_neg (by simpa using h)]
      rfl

lemma take_one_colon {l : GoString} (h1 : l.take 1 = [':']) :
    l = ':' :: l.drop 1 := by
  cases l with
  | nil => simp at h1
  | cons a t =>
    simp only [List.take, List.cons.injEq] at h1
    rw [h1.1]
    rfl

/-! Character facts. -/

lemma validHostChar_ne_question {c : Char} (h : validHostChar c = true) :
    (decide (c ≠ '?')) = true := by
  refine decide_eq_true (fun hc => ?_)
  subst hc; exact absurd h (by decide)

lemma validHostChar_ne_slash {c : Char} (h : validHostChar c = true) :
    (decide (c ≠ '/')) = true := by
  refine decide_eq_true (fun hc => ?_)
  subst hc; exact absurd h (by decide)

lemma isDigit_ne_colon {c : Char} (h : c.isDigit = true) :
    (decide (c ≠ ':')) = true := by
  refine decide_eq_true (fun hc => ?_)
  subst hc; exact absurd h (by decide)

/-! URL-parsing lemmas. -/

/-- Decomposition of a host-and-port string accepted by the validator regex:
the host part (no colon, no slash) and the optional colon-digits suffix. -/
lemma matchesHostPort_decomp {hp : GoString} (hm : matchesHostPort hp = true) :
    ∃ host rest, hp = host ++ rest ∧ host ≠ [] ∧
      (∀ c ∈ host, (decide (c ≠ ':') && decide (c ≠ '/')) = true) ∧
      (rest = [] ∨
        ∃ ds, rest = ':' :: ds ∧ ds ≠ [] ∧ ds.all Char.isDigit = true) := by
  simp only [matchesHostPort, Bool.and_eq_true, Bool.or_eq_true,
    Bool.not_eq_true', List.isEmpty_eq_false, decide_eq_true_eq,
    List.isEmpty_iff, List.isEmpty_eq_true] at hm
  obtain ⟨hne, hrest⟩ := hm
  refine ⟨hp.takeWhile (fun c => decide (c ≠ ':') && decide (c ≠ '/')),
    hp.drop (hp.takeWhile
      (fun c => decide (c ≠ ':') && decide (c ≠ '/'))).length,
    ?_, hne, fun c hc => mem_takeWhile_pred hc, ?_⟩
  · rw [drop_takeWhile_length]
    exact (List.takeWhile_append_dropWhile _ _).symm
  · rcases hrest with h | ⟨⟨h1, h2⟩, h3⟩
    · exact Or.inl h
    · exact Or.inr ⟨_, take_one_colon h1, h2, h3⟩

/-- A host-and-port string of the validator's shape whose bytes are valid
host bytes, and which does not open a bracket host, passes `parseHost`
unchanged. -/
lemma parseHost_ok {hp : GoString} (hbr : hp.take 1 ≠ ['['])
    (hm : matchesHostPort hp = true)
    (hv : hp.all validHostChar = true) : parseHost hp = .ok hp := by
  obtain ⟨host, rest, hhp, hne, hhost, hrest⟩ := matchesHostPort_decomp hm
  have hport : validOptionalPort (lastColonPart hp) = true := by
    rcases hrest with rfl | ⟨ds, rfl, hds, hall⟩
    · have hnc : ∀ c ∈ hp.reverse, (decide (c ≠ ':')) = true := by
        intro c hc
        rw [List.mem_reverse] at hc
        rw [hhp, List.append_nil] at hc
        exact ((Bool.and_eq_true _ _).mp (hhost c hc)).1
      simp only [lastColonPart]
      rw [takeWhile_eq_self_of_all hnc, List.length_reverse, if_pos rfl]
      rfl
    · have hrev : hp.reverse = ds.reverse ++ ':' :: host.reverse := by
        rw [hhp]; simp
      have hdsne : ∀ x ∈ ds.reverse, (decide (x ≠ ':')) = true := by
        intro x hx
        rw [List.mem_reverse] at hx
        exact isDigit_ne_colon (List.all_eq_true.mp hall x hx)
      have hlen : hp.length = host.length + ds.length + 1 := by
        rw [hhp]
        simp [List.length_append]
        omega
      simp only [lastColonPart]
      rw [hrev, takeWhile_append_stop hdsne (by decide), List.length_reverse,
        if_neg (by omega)]
      have hd : hp.length - ds.length - 1 = host.length := by omega
      rw [hd, hhp, List.drop_left]
      simp [validOptionalPort, hall]
  unfold parseHost
  rw [if_neg hbr, hport]
  simp [hv]

lemma getScheme_http (rest : GoString) :
    getScheme ('h' :: 't' :: 't' :: 'p' :: ':' :: rest) =
      .ok (['h', 't', 't', 'p'], rest) := rfl

lemma getScheme_https (rest : GoString) :
    getScheme ('h' :: 't' :: 't' :: 'p' :: 's' :: ':' :: rest) =
      .ok (['h', 't', 't', 'p', 's'], rest) := rfl

/-- Parsing a base URL of the validator's shape (non-bracket host): the
scheme and the whole host-and-port component are recovered exactly, with
empty path and query. -/
lemma urlParse_endpointOf (b : Bool) {hp : GoString}
    (hbr : hp.take 1 ≠ ['[']) (hm : matchesHostPort hp = true)
    (hv : hp.all validHostChar = true) :
    urlParse (endpointOf b hp) =
      .ok { scheme := if b then gs "https" else gs "http", host := hp,
            path := [], rawQuery := [], opq := [] } := by
  have hv' := List.all_eq_true.mp hv
  have hnq : ∀ c ∈ hp, (decide (c ≠ '?')) = true :=
    fun c hc => validHostChar_ne_question (hv' c hc)
  have hns : ∀ c ∈ hp, (decide (c ≠ '/')) = true :=
    fun c hc => validHostChar_ne_slash (hv' c hc)
  have hcut : cutQuery ('/' :: '/' :: hp) = ('/' :: '/' :: hp, []) := by
    simp only [cutQuery]
    rw [List.takeWhile_cons, if_pos (by decide), List.takeWhile_cons,
      if_pos (by decide), takeWhile_eq_self_of_all hnq]
    simp
  have hnq' : ∀ c ∈ hp, (!decide (c = '?')) = true := by
    intro c hc
    simpa [decide_not] using hnq c hc
  have hns' : ∀ c ∈ hp, (!decide (c = '/')) = true := by
    intro c hc
    simpa [decide_not] using hns c hc
  have hpar := parseHost_ok hbr hm hv
  cases b
  · show urlParse ('h' :: 't' :: 't' :: 'p' :: ':' :: '/' :: '/' :: hp) =
      .ok { scheme := ['h', 't', 't', 'p'], host := hp, path := [],
            rawQuery := [], opq := [] }
    have hl : (['h', 't', 't', 'p'] : GoString).map Char.toLower =
        ['h', 't', 't', 'p'] := rfl
    simp only [urlParse, getScheme_http, hl, hcut, List.take, List.drop,
      takeWhile_eq_self_of_all hns, hpar, List.drop_length]
    simp
    rw [takeWhile_eq_self_of_all hnq', takeWhile_eq_self_of_all hns',
      List.drop_length, hpar]
  · show urlParse
        ('h' :: 't' :: 't' :: 'p' :: 's' :: ':' :: '/' :: '/' :: hp) =
      .ok { scheme := ['h', 't', 't', 'p', 's'], host := hp, path := [],
            rawQuery := [], opq := [] }
    have hl : (['h', 't', 't', 'p', 's'] : GoString).map Char.toLower =
        ['h', 't', 't', 'p', 's'] := rfl
    simp only [urlParse, getScheme_https, hl, hcut, List.take, List.drop,
      takeWhile_eq_self_of_all hns, hpar, List.drop_length]
    simp
    rw [takeWhile_eq_self_of_all hnq', takeWhile_eq_self_of_all hns',
      List.drop_length, hpar]

/-! Transport lemmas. -/

/-- The rewrite `RoundTrip` performs against a base URL of the validator's
shape: scheme and host are overwritten with exactly the endpoint's, the rest
of the request is untouched apart from the appended header. -/
lemma roundTrip_endpointOf (b : Bool) {hp : GoString} (tok : GoString)
    (r : Request) (hbr : hp.take 1 ≠ ['[']) (hm : matchesHostPort hp = true)
    (hv : hp.all validHostChar = true) :
    fireflyTransport.roundTrip ⟨endpointOf b hp, tok⟩ r =
      .ok { r with
            url := { r.url with
                     scheme := if b then gs "https" else gs "http",
                     host := hp },
            header := headerAdd r.header authorizationKey
                        (bearerValue tok) } := by
  unfold fireflyTransport.roundTrip
  rw [urlParse_endpointOf b hbr hm hv]

/-- Base URLs of the shape `endpointOf` are exactly instances of the
validator regex. -/
lemma endpointOf_matches (b : Bool) {hp : GoString}
    (hm : matchesHostPort hp = true) :
    matchesEndpointPattern (endpointOf b hp) = true := by
  cases b <;> exact hm

/-- A successful `RoundTrip` always has the shape: parse succeeded, scheme
and host copied from the parse, bearer header appended. -/
lemma roundTrip_ok_shape (t : fireflyTransport) (r r' : Request)
    (hok : t.roundTrip r = .ok r') :
    ∃ parsed, urlParse t.baseURL = .ok parsed ∧
      r' = { r with
             url := { r.url with
                      scheme := parsed.scheme,
                      host := parsed.host },
             header := headerAdd r.header authorizationKey
                         (bearerValue t.accessToken) } := by
  unfold fireflyTransport.roundTrip at hok
  cases hu : urlParse t.baseURL with
  | error e =>
    rw [hu] at hok
    exact absurd hok (by simp)
  | ok parsed =>
    rw [hu] at hok
    simp only [Except.ok.injEq] at hok
    exact ⟨parsed, rfl, hok.symm⟩

/-! Header lemmas. -/

lemma headerValues_add_self (h : Header) (k v : GoString) :
    headerValues (headerAdd h k v) k = headerValues h k ++ [v] := by
  simp [headerAdd, headerValues, List.filter_append]

lemma headerGet_add_fresh (h : Header) (k v : GoString)
    (hnone : headerValues h k = []) :
    headerGet (headerAdd h k v) k = v := by
  have hfil : h.filter (fun kv => kv.1 = k) = [] := by
    have hm := hnone
    unfold headerValues at hm
    exact List.map_eq_nil_iff.mp hm
  have hf : h.find? (fun kv => (kv.1 = k : Bool)) = none := by
    rw [List.find?_eq_none]
    intro kv hkv hp
    exact List.filter_eq_nil_iff.mp hfil kv hkv hp
  unfold headerGet headerAdd
  rw [List.find?_append, hf]
  simp

end Firefly

namespace Firefly

/-- C1: the claim says a malformed body makes `Read` fail with a decode
error and produce no record.  The code instead discards the error of
`json.Decode` (sysinfo_data_source.go line 109): on an unparseable body, and
likewise on a wrong-shape body, `Read` succeeds and writes a record whose
five fields are all the empty string. -/
theorem read_ignores_decode_failure :
    sysInfoRead (.ok none) = .ok (envelopeToModel zeroEnvelopeData) ∧
    sysInfoReadStateful none (.ok none) =
      (some (envelopeToModel zeroEnvelopeData), none) ∧
    sysInfoRead (.ok (some (Json.str (gs "oops")))) =
      .ok (envelopeToModel zeroEnvelopeData) :=
  ⟨rfl, rfl, rfl⟩

/-- C2: for every base URL of the validator's pattern
`scheme://host[:port]` that Go's `url.Parse` accepts (parseable host bytes,
not a bracket host) and every request, `RoundTrip` sets the request URL's
scheme and host to exactly the endpoint's, leaving path and query (and
everything else but the header) unchanged. -/
theorem roundTrip_rewrites_to_endpoint (b : Bool) (hp tok : GoString)
    (r : Request) (hbr : hp.take 1 ≠ ['[']) (hm : matchesHostPort hp = true)
    (hv : hp.all validHostChar = true) :
    matchesEndpointPattern (endpointOf b hp) = true ∧
    fireflyTransport.roundTrip ⟨endpointOf b hp, tok⟩ r =
      .ok { r with
            url := { r.url with
                     scheme := if b then gs "https" else gs "http",
                     host := hp },
            header := headerAdd r.header authorizationKey
                        (bearerValue tok) } :=
  ⟨endpointOf_matches b hm, roundTrip_endpointOf b tok r hbr hm hv⟩

/-- Witness for C2 at `http://firefly.local:8000` and the about-request. -/
theorem roundTrip_rewrites_to_endpoint_witness :
    (gs "firefly.local:8000").take 1 ≠ ['['] ∧
    matchesHostPort (gs "firefly.local:8000") = true ∧
    (gs "firefly.local:8000").all validHostChar = true ∧
    (matchesEndpointPattern
        (endpointOf false (gs "firefly.local:8000")) = true ∧
     fireflyTransport.roundTrip
        ⟨endpointOf false (gs "firefly.local:8000"), gs "tok"⟩ aboutRequest =
       .ok { aboutRequest with
             url := { aboutRequest.url with
                      scheme := if false then gs "https" else gs "http",
                      host := gs "firefly.local:8000" },
             header := headerAdd aboutRequest.header authorizationKey
                         (bearerValue (gs "tok")) }) :=
  ⟨by decide, by decide, by decide,
   roundTrip_rewrites_to_endpoint false (gs "firefly.local:8000") (gs "tok")
     aboutRequest (by decide) (by decide) (by decide)⟩

/-- C3 counterexample: a request that already carries an `Authorization`
header.  `RoundTrip` uses `Header.Add`, which appends, so after the rewrite
the header (as `Header.Get` reads it) is the stale value, not
`Bearer <token>`; the claim as stated over every request is false. -/
theorem roundTrip_auth_header_counterexample :
    fireflyTransport.roundTrip tokenTransport staleAuthRequest =
      .ok staleAuthRewritten ∧
    headerGet staleAuthRewritten.header authorizationKey ≠
      bearerValue tokenTransport.accessToken :=
  ⟨rfl, by decide⟩

/-- C3 amended: for every request with no pre-existing `Authorization`
header, after a successful `RoundTrip` the `Authorization` header is present
and equals exactly `Bearer <token>` (and it is the only value held for the
key); in general `RoundTrip` appends `Bearer <token>` to whatever values the
key already holds. -/
theorem roundTrip_adds_bearer_header (t : fireflyTransport) (r r' : Request)
    (hfresh : headerValues r.header authorizationKey = [])
    (hok : t.roundTrip r = .ok r') :
    headerGet r'.header authorizationKey = bearerValue t.accessToken ∧
    headerValues r'.header authorizationKey =
      [bearerValue t.accessToken] := by
  obtain ⟨parsed, hu, rfl⟩ := roundTrip_ok_shape t r r' hok
  constructor
  · exact headerGet_add_fresh _ _ _ hfresh
  · rw [headerValues_add_self, hfresh]
    rfl

/-- Witness for C3 amended at the fresh about-request and `tokenTransport`. -/
theorem roundTrip_adds_bearer_header_witness :
    headerValues aboutRequest.header authorizationKey = [] ∧
    headerGet
        (headerAdd aboutRequest.header authorizationKey
          (bearerValue (gs "tok"))) authorizationKey =
      bearerValue (gs "tok") :=
  ⟨rfl,
   (roundTrip_adds_bearer_header tokenTransport aboutRequest
     { aboutRequest with
       url := { aboutRequest.url with
                scheme := gs "http", host := gs "firefly.local" },
       header := headerAdd aboutRequest.header authorizationKey
                   (bearerValue (gs "tok")) } rfl rfl).1⟩

/-- C4: for every well-formed envelope body, the record's five fields equal
exactly the five envelope string values with no transformation; and the
spec's concrete example body yields the example record. -/
theorem read_passthrough_envelope (v a p o dr : GoString) :
    sysInfoRead (.ok (some (Json.obj [(gs "data", Json.obj
      [(gs "version", Json.str v), (gs "api_version", Json.str a),
       (gs "php_version", Json.str p), (gs "os", Json.str o),
       (gs "driver", Json.str dr)])]))) =
      .ok { version := v, apiVersion := a, phpVersion := p, os := o,
            dbDriver := dr } ∧
    sysInfoRead (.ok (some exampleEnvelopeBody)) = .ok exampleRecord :=
  ⟨rfl, rfl⟩

/-- C5: every endpoint string that does not match the base-URL pattern
`scheme://host[:port]` is rejected by the configuration pipeline (the
schema's regex validator runs before `Configure`), so no HTTP client is ever
constructed for it and no network call can be attempted. -/
theorem invalid_endpoint_rejected_at_configure (m : FireflyProviderModel)
    (h : matchesEndpointPattern m.endpoint = false) :
    providerConfigure m = .error endpointValidationError := by
  unfold providerConfigure
  rw [h]
  rfl

/-- Witness for C5 at the schemeless endpoint `firefly.local`. -/
theorem invalid_endpoint_rejected_at_configure_witness :
    matchesEndpointPattern (gs "firefly.local") = false ∧
    providerConfigure { endpoint := gs "firefly.local",
                        accessToken := gs "tok" } =
      .error endpointValidationError :=
  ⟨by decide, invalid_endpoint_rejected_at_configure _ (by decide)⟩

/-- C6: when `client.Do` fails, `Read` reports the client-error diagnostic,
leaves the caller-visible state exactly as it was, and issued exactly the
one about-request (no retry). -/
theorem read_transport_error_atomic (err : GoString)
    (st : Option SysInfoDataSourceModel) :
    sysInfoReadStateful st (.error err) = (st, some (clientErrorDiag err)) ∧
    (sysInfoReadTraced (fun _ => .error err)).1 =
      .error (clientErrorDiag err) ∧
    (sysInfoReadTraced (fun _ => .error err)).2 = [aboutRequest] :=
  ⟨rfl, rfl, rfl⟩

/-- C7: every `Read` hands exactly one request to the client, the GET for
the fixed relative path `/api/v1/about`; and through the transport that
request is addressed to exactly `{endpoint}/api/v1/about` for every endpoint
of the validator's pattern that Go's `url.Parse` accepts (parseable host
bytes, not a bracket host). -/
theorem read_issues_single_get_about
    (client : Request → Except GoString Body) (b : Bool)
    (hp tok : GoString) (hbr : hp.take 1 ≠ ['['])
    (hm : matchesHostPort hp = true)
    (hv : hp.all validHostChar = true) :
    (sysInfoReadTraced client).2 = [aboutRequest] ∧
    aboutRequest.method = gs "GET" ∧
    aboutRequest.url.path = gs "/api/v1/about" ∧
    fireflyTransport.roundTrip ⟨endpointOf b hp, tok⟩ aboutRequest =
      .ok (rewrittenAbout b hp tok) ∧
    fullURLString (rewrittenAbout b hp tok).url =
      endpointOf b hp ++ gs "/api/v1/about" := by
  refine ⟨rfl, rfl, rfl, ?_, rfl⟩
  exact roundTrip_endpointOf b tok aboutRequest hbr hm hv

/-- Witness for C7 at `http://firefly.local:8000`. -/
theorem read_issues_single_get_about_witness :
    (gs "firefly.local:8000").take 1 ≠ ['['] ∧
    matchesHostPort (gs "firefly.local:8000") = true ∧
    (gs "firefly.local:8000").all validHostChar = true ∧
    ((sysInfoReadTraced (fun _ => .ok none)).2 = [aboutRequest] ∧
     aboutRequest.method = gs "GET" ∧
     aboutRequest.url.path = gs "/api/v1/about" ∧
     fireflyTransport.roundTrip
        ⟨endpointOf false (gs "firefly.local:8000"), gs "tok"⟩ aboutRequest =
       .ok (rewrittenAbout false (gs "firefly.local:8000") (gs "tok")) ∧
     fullURLString (rewrittenAbout false (gs "firefly.local:8000")
        (gs "tok")).url =
       endpointOf false (gs "firefly.local:8000") ++ gs "/api/v1/about") :=
  ⟨by decide, by decide, by decide,
   read_issues_single_get_about (fun _ => .ok none) false
     (gs "firefly.local:8000") (gs "tok") (by decide) (by decide)
     (by decide)⟩

/-- C8: for a fixed remote response, two consecutive `Read` invocations
produce identical outcomes, and the record written is a function of the
response alone (the data source keeps no mutable per-call state). -/
theorem read_idempotent (st : Option SysInfoDataSourceModel) (body : Body) :
    sysInfoReadStateful ((sysInfoReadStateful st (.ok body)).1) (.ok body) =
      sysInfoReadStateful st (.ok body) ∧
    (sysInfoReadStateful st (.ok body)).1 =
      some (envelopeToModel (decodeEnvelope body)) :=
  ⟨rfl, rfl⟩

/-- C9: `Configure` invoked with nil provider data returns at once, adds no
diagnostic, and leaves the data source's client exactly as it was (unset
when it was unset). -/
theorem configure_nil_provider_data (d : SysInfoDataSource) :
    sysInfoConfigure d none = (d, []) ∧
    (sysInfoConfigure d none).1.client = d.client :=
  ⟨rfl, rfl⟩

/-- C10: for the fixed method `GET` and fixed target `/api/v1/about`,
`http.NewRequest` succeeds, so the error `Read` discards at
sysinfo_data_source.go line 92 is always nil and the nil-request branch is
unreachable. -/
theorem newRequest_about_never_fails :
    newRequest (gs "GET") (gs "/api/v1/about") = .ok aboutRequest ∧
    sysInfoHttpReq = .ok aboutRequest :=
  ⟨rfl, rfl⟩

end Firefly
